import Mathlib

/-!
Shallow embedding of the `clean_data` task of `insurance_etl_dag.py`.

The task reads a batch of motor-insurance records, repairs missing values
(`Type_fuel` → "Unknown", `Length` → batch mean), replaces the sentinel
`'00/01/1900'` in `Distribution_channel` with `0` and coerces the column to
int, parses the six date columns day-first (unparseable → null), nulls dates
below the BigQuery floor `0001-01-01`, attaches a UTC zone tag, resolves the
two lapse contradictions, adds the `flag_invalid_start_vs_last` indicator,
and writes the batch out.  Fallible pandas operations (`astype(int)` on
non-numeric data, comparison of tz-aware data with the naive floor,
`tz_localize` on already-aware data) are modelled with `Except`.
-/

namespace InsuranceEtl

/-- Errors raised by the fallible pandas operations inside `clean_data`:
`astype(int)` on a value with no integer representation, comparison of a
tz-aware value with the tz-naive floor timestamp, and `tz_localize` on an
already tz-aware value. -/
inductive CleanErr where
  | intCast
  | cmpTzAwareNaive
  | alreadyTzAware
  deriving DecidableEq, Repr

/-- A calendar date, the payload of a pandas timestamp at day resolution
(the CSV carries pure dates). -/
structure Date where
  year : Nat
  month : Nat
  day : Nat
  deriving DecidableEq, Repr

/-- Numeric encoding of a date; on valid dates it orders exactly as the
calendar does, which is how timestamp comparisons are modelled. -/
def Date.code (d : Date) : Nat := d.year * 10000 + d.month * 100 + d.day

/-- A cell of one of the six date columns: null (`NaN`/`NaT`), raw text as
read from the CSV, or a typed timestamp carrying an optional time-zone tag. -/
inductive DateVal where
  | null
  | text (s : String)
  | ts (d : Date) (tz : Option String)
  deriving DecidableEq, Repr

/-- `Series.notnull()` on a date cell. -/
def DateVal.isNotNull : DateVal → Bool
  | .null => false
  | _ => true

/-- A cell of the `Distribution_channel` column: null (`NaN`), text (the
column is read as object dtype when it carries the date-like sentinel), or an
integer. -/
inductive ChanVal where
  | null
  | str (s : String)
  | int (n : Int)
  deriving DecidableEq, Repr

/-- One record of the batch.  Field names follow the CSV column names used by
`clean_data`; `flag_invalid_start_vs_last` is absent (`none`) on input and is
assigned by the cleaner. -/
structure Row where
  Type_fuel : Option String
  Length : Option ℚ
  Distribution_channel : ChanVal
  Date_start_contract : DateVal
  Date_last_renewal : DateVal
  Date_next_renewal : DateVal
  Date_birth : DateVal
  Date_driving_licence : DateVal
  Date_lapse : DateVal
  Lapse : Int
  flag_invalid_start_vs_last : Option Int
  deriving DecidableEq, Repr

/-- Gregorian leap-year rule, as used by the Python `datetime` calendar that
`pd.to_datetime` parses into. -/
def isLeapYear (y : Nat) : Bool := (y % 4 == 0 && y % 100 != 0) || y % 400 == 0

/-- Number of days of month `m` of year `y`. -/
def daysInMonth (y m : Nat) : Nat :=
  if m = 2 then (if isLeapYear y then 29 else 28)
  else if m = 4 ∨ m = 6 ∨ m = 9 ∨ m = 11 then 30 else 31

/-- Split a character list at every occurrence of the separator `c`; the
groups between separators are returned in order (always at least one group). -/
def splitOnChar (c : Char) : List Char → List (List Char)
  | [] => [[]]
  | a :: l =>
      match splitOnChar c l with
      | [] => [[a]]
      | g :: gs => if a = c then [] :: g :: gs else (a :: g) :: gs

/-- Read a non-empty all-digit character group as a number. -/
def digitsToNat : List Char → Option Nat
  | [] => none
  | l =>
      if l.all Char.isDigit
      then some (l.foldl (fun acc c => 10 * acc + (c.toNat - 48)) 0)
      else none

/-- Day-first parse of one date text, modelling
`pd.to_datetime(s, errors='coerce', dayfirst=True)` on the `d/m/y` numeric
texts the CSV carries: the first component is the day, the second the month,
the third the year; a component that is not a number, a day/month outside the
calendar, or a year outside `1..9999` (the Python `datetime` range) does not
parse.  Texts in any other shape are treated as unparseable. -/
def parseDayFirst (s : String) : Option Date :=
  match splitOnChar '/' s.data with
  | [ds, ms, ys] =>
    match digitsToNat ds, digitsToNat ms, digitsToNat ys with
    | some d, some m, some y =>
        if 1 ≤ y ∧ y ≤ 9999 ∧ 1 ≤ m ∧ m ≤ 12 ∧ 1 ≤ d ∧ d ≤ daysInMonth y m
        then some ⟨y, m, d⟩ else none
    | _, _, _ => none
  | _ => none

/-- `pd.to_datetime(col, errors='coerce', dayfirst=True)` on one cell:
nulls stay null, text parses day-first with failures coerced to `NaT`
(never an error), and already-typed timestamps pass through unchanged. -/
def toDatetime : DateVal → DateVal
  | .null => .null
  | .text s =>
      match parseDayFirst s with
      | some d => .ts d none
      | none => .null
  | .ts d tz => .ts d tz

/-- The BigQuery floor `pd.Timestamp("0001-01-01")`. -/
def tsLimit : Nat := (Date.mk 1 1 1).code

/-- `df.loc[col < pd.Timestamp("0001-01-01"), col] = pd.NaT` on one cell:
a naive timestamp below the floor becomes `NaT`, `NaT` compares false and
stays, and comparing a tz-aware cell (or leftover text) with the naive floor
raises, as pandas does. -/
def floorFilter : DateVal → Except CleanErr DateVal
  | .null => .ok .null
  | .ts d none => if d.code < tsLimit then .ok .null else .ok (.ts d none)
  | .ts _ (some _) => .error .cmpTzAwareNaive
  | .text _ => .error .cmpTzAwareNaive

/-- `col.dt.tz_localize("UTC")` on one cell: attaches the UTC tag to a naive
timestamp without changing its wall-clock value, leaves `NaT` alone, and
raises on a cell that is already tz-aware (and on leftover text, where `.dt`
is unavailable). -/
def tzLocalizeUtc : DateVal → Except CleanErr DateVal
  | .null => .ok .null
  | .ts d none => .ok (.ts d (some "UTC"))
  | .ts _ (some _) => .error .alreadyTzAware
  | .text _ => .error .alreadyTzAware

/-- The body of the date-column loop of `clean_data` applied to one cell:
parse, drop below-floor values, attach UTC. -/
def cleanDateCell (v : DateVal) : Except CleanErr DateVal := do
  tzLocalizeUtc (← floorFilter (toDatetime v))

/-- `Series.fillna('Unknown')` on one `Type_fuel` cell. -/
def fillUnknown : Option String → Option String
  | none => some "Unknown"
  | some s => some s

/-- `df['Length'].mean()`: the arithmetic mean of the non-null `Length`
values of the batch; `none` models the `NaN` pandas returns when every value
is null. -/
def meanLength (b : List Row) : Option ℚ :=
  let vs := b.filterMap Row.Length
  if vs.isEmpty then none else some (vs.sum / (vs.length : ℚ))

/-- `Series.fillna(m)` on one `Length` cell.  When `m` is `none` (the
all-null batch, where `mean()` returned `NaN`) the fill is a no-op and the
null survives. -/
def fillMean (m : Option ℚ) : Option ℚ → Option ℚ
  | none => m
  | some q => some q

/-- `Series.replace('00/01/1900', 0)` on one `Distribution_channel` cell:
only the exact sentinel text is substituted. -/
def replaceSentinel : ChanVal → ChanVal
  | .str s => if s = "00/01/1900" then .int 0 else .str s
  | v => v

/-- Read a character list as a signed integer: an optional minus sign
followed by digits; anything else has no integer reading. -/
def charsToInt : List Char → Option Int
  | '-' :: l => (digitsToNat l).map (fun n => -(n : Int))
  | l => (digitsToNat l).map (fun n => (n : Int))

/-- `Series.astype(int)` on one `Distribution_channel` cell: integers pass,
integer-shaped text converts, and anything else — non-numeric text or a null
— raises. -/
def astypeInt : ChanVal → Except CleanErr Int
  | .int n => .ok n
  | .str s =>
      match charsToInt s.data with
      | some n => .ok n
      | none => .error .intCast
  | .null => .error .intCast

/-- Timestamp comparison `a > b` as pandas evaluates it inside the
contradiction rules: any null operand makes the condition false; on two
timestamps the calendar order decides. -/
def dvGt : DateVal → DateVal → Bool
  | .ts d1 _, .ts d2 _ => d2.code < d1.code
  | _, _ => false

/-- Lapse-without-date rule (line 70): `Lapse == 0` with a non-null
`Date_lapse` nulls `Date_lapse`. -/
def fixLapseWithoutDate (r : Row) : Row :=
  if r.Lapse = 0 ∧ r.Date_lapse.isNotNull then { r with Date_lapse := .null } else r

/-- Renewal-after-lapse rule (line 71): `Lapse ∈ {1,2}` with a non-null
`Date_lapse` and `Date_last_renewal > Date_lapse` nulls `Date_last_renewal`. -/
def fixRenewalAfterLapse (r : Row) : Row :=
  if (r.Lapse = 1 ∨ r.Lapse = 2) ∧ r.Date_lapse.isNotNull = true
      ∧ dvGt r.Date_last_renewal r.Date_lapse = true
  then { r with Date_last_renewal := .null } else r

/-- Start-after-renewal flag (lines 76-78):
`(Date_start_contract > Date_last_renewal).astype(int)`. -/
def addFlag (r : Row) : Row :=
  { r with flag_invalid_start_vs_last :=
      (some (if dvGt r.Date_start_contract r.Date_last_renewal then 1 else 0)) }

/-- Column-wise fallible traversal: apply `f` to every row, aborting the
whole batch at the first raising row, as a raising pandas column operation
aborts the task. -/
def mapEx (f : Row → Except CleanErr Row) : List Row → Except CleanErr (List Row)
  | [] => .ok []
  | r :: l => do
      let r' ← f r
      let l' ← mapEx f l
      pure (r' :: l')

/-- One pass of the date-column loop over the whole batch, for the column
read by `get` and written by `set`. -/
def normCol (get : Row → DateVal) (set : Row → DateVal → Row)
    (b : List Row) : Except CleanErr (List Row) :=
  mapEx (fun r => (cleanDateCell (get r)).map (set r)) b

/-- The `Distribution_channel` pass: sentinel replacement followed by the
int coercion, over the whole batch. -/
def chanPass (b : List Row) : Except CleanErr (List Row) :=
  mapEx (fun r => (astypeInt (replaceSentinel r.Distribution_channel)).map
      (fun n => { r with Distribution_channel := ChanVal.int n })) b

/-- Line 36: `insurance_clean_df['Type_fuel'].fillna('Unknown')` over the
whole batch. -/
def fillTypeFuelPass (b : List Row) : List Row :=
  b.map (fun r => { r with Type_fuel := fillUnknown r.Type_fuel })

/-- Lines 40-41: the batch mean of `Length` is computed once, from the batch
in its current state, and then filled into every null `Length` cell. -/
def fillLengthPass (b : List Row) : List Row :=
  b.map (fun r => { r with Length := fillMean (meanLength b) r.Length })

/-- The cleaning transformation of `clean_data` (lines 32-79), between the
CSV read and the parquet write: the stages run in source order and any
raising stage aborts the batch with nothing written. -/
def clean (b : List Row) : Except CleanErr (List Row) := do
  let b3 ← chanPass (fillLengthPass (fillTypeFuelPass b))
  let b4 ← normCol (fun r => r.Date_start_contract)
      (fun r v => { r with Date_start_contract := v }) b3
  let b5 ← normCol (fun r => r.Date_last_renewal)
      (fun r v => { r with Date_last_renewal := v }) b4
  let b6 ← normCol (fun r => r.Date_next_renewal)
      (fun r v => { r with Date_next_renewal := v }) b5
  let b7 ← normCol (fun r => r.Date_birth)
      (fun r v => { r with Date_birth := v }) b6
  let b8 ← normCol (fun r => r.Date_driving_licence)
      (fun r v => { r with Date_driving_licence := v }) b7
  let b9 ← normCol (fun r => r.Date_lapse)
      (fun r v => { r with Date_lapse := v }) b8
  pure (((b9.map fixLapseWithoutDate).map fixRenewalAfterLapse).map addFlag)

/-! ### Lemmas about the fallible combinators -/

theorem exceptBind_ok {α β : Type} {x : Except CleanErr α} {g : α → Except CleanErr β}
    {out : β} (h : x >>= g = .ok out) : ∃ v, x = .ok v ∧ g v = .ok out := by
  cases x with
  | error e => simp [Bind.bind, Except.bind] at h
  | ok v => exact ⟨v, rfl, by simpa [Bind.bind, Except.bind] using h⟩

theorem mapEx_nil (f : Row → Except CleanErr Row) : mapEx f [] = .ok [] := rfl

theorem mapEx_cons (f : Row → Except CleanErr Row) (r : Row) (l : List Row) :
    mapEx f (r :: l) = (f r >>= fun r' => mapEx f l >>= fun l' => .ok (r' :: l')) := rfl

theorem mapEx_ok_length {f : Row → Except CleanErr Row} :
    ∀ {l out : List Row}, mapEx f l = .ok out → out.length = l.length := by
  intro l
  induction l with
  | nil =>
    intro out h
    rw [mapEx_nil] at h
    cases h
    rfl
  | cons r l ih =>
    intro out h
    rw [mapEx_cons] at h
    obtain ⟨v, hv, h⟩ := exceptBind_ok h
    obtain ⟨vs, hvs, h⟩ := exceptBind_ok h
    cases h
    simp [ih hvs]

theorem mapEx_ok_get {f : Row → Except CleanErr Row} :
    ∀ {l out : List Row}, mapEx f l = .ok out →
      ∀ (i : Nat) (h1 : i < l.length) (h2 : i < out.length),
        f (l.get ⟨i, h1⟩) = .ok (out.get ⟨i, h2⟩) := by
  intro l
  induction l with
  | nil =>
    intro out h i h1 h2
    exact absurd h1 (by simp)
  | cons r l ih =>
    intro out h i h1 h2
    rw [mapEx_cons] at h
    obtain ⟨v, hv, h⟩ := exceptBind_ok h
    obtain ⟨vs, hvs, h⟩ := exceptBind_ok h
    cases h
    cases i with
    | zero => simpa using hv
    | succ j => exact ih hvs j (by simpa using h1) (by simpa using h2)

theorem mapEx_error_of_mem {f : Row → Except CleanErr Row} {l : List Row} {r : Row}
    (hr : r ∈ l) {e : CleanErr} (he : f r = .error e) :
    ∃ e', mapEx f l = .error e' := by
  induction l with
  | nil => cases hr
  | cons a l ih =>
    cases hr with
    | head => exact ⟨e, by rw [mapEx_cons, he]; rfl⟩
    | tail _ hmem =>
      cases ha : f a with
      | error e2 => exact ⟨e2, by rw [mapEx_cons, ha]; rfl⟩
      | ok v =>
        obtain ⟨e', he'⟩ := ih hmem
        refine ⟨e', ?_⟩
        rw [mapEx_cons, ha]
        simp only [Bind.bind, Except.bind]
        rw [he']

theorem mapEx_ok_id {f : Row → Except CleanErr Row} {l : List Row}
    (h : ∀ r ∈ l, f r = .ok r) : mapEx f l = .ok l := by
  induction l with
  | nil => rfl
  | cons a l ih =>
    rw [mapEx_cons, h a (by simp), ih (fun r hr => h r (by simp [hr]))]
    rfl

theorem map_eq_self_of {f : Row → Row} {l : List Row} (h : ∀ r ∈ l, f r = r) :
    l.map f = l := by
  induction l with
  | nil => rfl
  | cons a l ih => simp [h a (by simp), ih (fun r hr => h r (by simp [hr]))]

/-! ### Shape of a date cell after the date-normalization loop -/

/-- What one pass of the date loop guarantees for a cell it did not reject:
the cell is null, or a UTC-tagged timestamp at or after the BigQuery floor. -/
def DateFieldOk (v : DateVal) : Prop :=
  v = .null ∨ ∃ d, v = .ts d (some "UTC") ∧ tsLimit ≤ d.code

theorem cleanDateCell_ok_shape {v w : DateVal} (h : cleanDateCell v = .ok w) :
    DateFieldOk w := by
  unfold cleanDateCell at h
  cases v with
  | null =>
    cases h
    exact Or.inl rfl
  | text s =>
    simp only [toDatetime] at h
    cases hp : parseDayFirst s with
    | none =>
      rw [hp] at h
      cases h
      exact Or.inl rfl
    | some d =>
      rw [hp] at h
      simp only [floorFilter] at h
      by_cases hlt : d.code < tsLimit
      · rw [if_pos hlt] at h
        cases h
        exact Or.inl rfl
      · rw [if_neg hlt] at h
        cases h
        exact Or.inr ⟨d, rfl, Nat.le_of_not_lt hlt⟩
  | ts d tz =>
    cases tz with
    | none =>
      simp only [toDatetime, floorFilter] at h
      by_cases hlt : d.code < tsLimit
      · rw [if_pos hlt] at h
        cases h
        exact Or.inl rfl
      · rw [if_neg hlt] at h
        cases h
        exact Or.inr ⟨d, rfl, Nat.le_of_not_lt hlt⟩
    | some z => cases h

theorem cleanDateCell_aware (d : Date) (z : String) :
    cleanDateCell (.ts d (some z)) = .error .cmpTzAwareNaive := rfl

theorem cleanDateCell_null_ok : cleanDateCell .null = .ok .null := rfl

/-! ### The three contradiction/flag passes only touch their own fields -/

theorem fixLapse_cases (r : Row) :
    fixLapseWithoutDate r = r ∨
      fixLapseWithoutDate r = { r with Date_lapse := .null } := by
  unfold fixLapseWithoutDate
  split
  · exact Or.inr rfl
  · exact Or.inl rfl

theorem fixRenewal_cases (r : Row) :
    fixRenewalAfterLapse r = r ∨
      fixRenewalAfterLapse r = { r with Date_last_renewal := .null } := by
  unfold fixRenewalAfterLapse
  split
  · exact Or.inr rfl
  · exact Or.inl rfl

/-! ### Decomposition of a successful `clean` run -/

theorem clean_ok_chain {b out : List Row} (h : clean b = .ok out) :
    ∃ b3 b4 b5 b6 b7 b8 b9 : List Row,
      chanPass (fillLengthPass (fillTypeFuelPass b)) = .ok b3 ∧
      normCol (fun r => r.Date_start_contract)
        (fun r v => { r with Date_start_contract := v }) b3 = .ok b4 ∧
      normCol (fun r => r.Date_last_renewal)
        (fun r v => { r with Date_last_renewal := v }) b4 = .ok b5 ∧
      normCol (fun r => r.Date_next_renewal)
        (fun r v => { r with Date_next_renewal := v }) b5 = .ok b6 ∧
      normCol (fun r => r.Date_birth)
        (fun r v => { r with Date_birth := v }) b6 = .ok b7 ∧
      normCol (fun r => r.Date_driving_licence)
        (fun r v => { r with Date_driving_licence := v }) b7 = .ok b8 ∧
      normCol (fun r => r.Date_lapse)
        (fun r v => { r with Date_lapse := v }) b8 = .ok b9 ∧
      out = ((b9.map fixLapseWithoutDate).map fixRenewalAfterLapse).map addFlag := by
  unfold clean at h
  obtain ⟨b3, h3, h⟩ := exceptBind_ok h
  obtain ⟨b4, h4, h⟩ := exceptBind_ok h
  obtain ⟨b5, h5, h⟩ := exceptBind_ok h
  obtain ⟨b6, h6, h⟩ := exceptBind_ok h
  obtain ⟨b7, h7, h⟩ := exceptBind_ok h
  obtain ⟨b8, h8, h⟩ := exceptBind_ok h
  obtain ⟨b9, h9, h⟩ := exceptBind_ok h
  cases h
  exact ⟨b3, b4, b5, b6, b7, b8, b9, h3, h4, h5, h6, h7, h8, h9, rfl⟩

theorem filterMap_Length_fillTypeFuelPass (b : List Row) :
    (fillTypeFuelPass b).filterMap Row.Length = b.filterMap Row.Length := by
  unfold fillTypeFuelPass
  rw [List.filterMap_map]
  rfl

theorem meanLength_fillTypeFuelPass (b : List Row) :
    meanLength (fillTypeFuelPass b) = meanLength b := by
  unfold meanLength
  rw [filterMap_Length_fillTypeFuelPass]

/-- Positional description of a successful `clean` run: row `i` of the
output is the flag/contradiction composition applied to a row `r9` whose
imputed, coerced and date-normalized fields are tied to row `i` of the
input. -/
theorem clean_ok_get {b out : List Row} (h : clean b = .ok out) :
    out.length = b.length ∧
    ∀ (i : Nat) (h1 : i < b.length) (h2 : i < out.length),
      ∃ r9 : Row,
        out.get ⟨i, h2⟩ = addFlag (fixRenewalAfterLapse (fixLapseWithoutDate r9)) ∧
        r9.Type_fuel = fillUnknown ((b.get ⟨i, h1⟩).Type_fuel) ∧
        r9.Length = fillMean (meanLength b) ((b.get ⟨i, h1⟩).Length) ∧
        (∃ n : Int, astypeInt (replaceSentinel ((b.get ⟨i, h1⟩).Distribution_channel)) = .ok n ∧
          r9.Distribution_channel = ChanVal.int n) ∧
        r9.Lapse = (b.get ⟨i, h1⟩).Lapse ∧
        DateFieldOk r9.Date_start_contract ∧ DateFieldOk r9.Date_last_renewal ∧
        DateFieldOk r9.Date_next_renewal ∧ DateFieldOk r9.Date_birth ∧
        DateFieldOk r9.Date_driving_licence ∧ DateFieldOk r9.Date_lapse := by
  obtain ⟨b3, b4, b5, b6, b7, b8, b9, h3, h4, h5, h6, h7, h8, h9, hout⟩ := clean_ok_chain h
  have l2 : (fillLengthPass (fillTypeFuelPass b)).length = b.length := by
    simp [fillLengthPass, fillTypeFuelPass]
  have l3 : b3.length = b.length := by rw [mapEx_ok_length h3, l2]
  have l4 : b4.length = b.length := by rw [mapEx_ok_length h4, l3]
  have l5 : b5.length = b.length := by rw [mapEx_ok_length h5, l4]
  have l6 : b6.length = b.length := by rw [mapEx_ok_length h6, l5]
  have l7 : b7.length = b.length := by rw [mapEx_ok_length h7, l6]
  have l8 : b8.length = b.length := by rw [mapEx_ok_length h8, l7]
  have l9 : b9.length = b.length := by rw [mapEx_ok_length h9, l8]
  have lo : out.length = b.length := by rw [hout]; simpa using l9
  refine ⟨lo, ?_⟩
  intro i h1 h2
  have hi2 : i < (fillLengthPass (fillTypeFuelPass b)).length := by omega
  have hi3 : i < b3.length := by omega
  have hi4 : i < b4.length := by omega
  have hi5 : i < b5.length := by omega
  have hi6 : i < b6.length := by omega
  have hi7 : i < b7.length := by omega
  have hi8 : i < b8.length := by omega
  have hi9 : i < b9.length := by omega
  have hc := mapEx_ok_get h3 i hi2 hi3
  cases ha : astypeInt (replaceSentinel
      (((fillLengthPass (fillTypeFuelPass b)).get ⟨i, hi2⟩).Distribution_channel)) with
  | error e => rw [ha] at hc; simp [Except.map] at hc
  | ok n =>
  rw [ha] at hc
  simp only [Except.map] at hc
  have e3 : b3.get ⟨i, hi3⟩ =
      { (fillLengthPass (fillTypeFuelPass b)).get ⟨i, hi2⟩ with
        Distribution_channel := ChanVal.int n } := by
    injection hc with hc
    exact hc.symm
  have hd1 := mapEx_ok_get h4 i hi3 hi4
  cases hcell1 : cleanDateCell ((b3.get ⟨i, hi3⟩).Date_start_contract) with
  | error e => rw [hcell1] at hd1; simp [Except.map] at hd1
  | ok w1 =>
  rw [hcell1] at hd1
  simp only [Except.map] at hd1
  have e4 : b4.get ⟨i, hi4⟩ = { b3.get ⟨i, hi3⟩ with Date_start_contract := w1 } := by
    injection hd1 with hd1
    exact hd1.symm
  have s1 : DateFieldOk w1 := cleanDateCell_ok_shape hcell1
  have hd2 := mapEx_ok_get h5 i hi4 hi5
  cases hcell2 : cleanDateCell ((b4.get ⟨i, hi4⟩).Date_last_renewal) with
  | error e => rw [hcell2] at hd2; simp [Except.map] at hd2
  | ok w2 =>
  rw [hcell2] at hd2
  simp only [Except.map] at hd2
  have e5 : b5.get ⟨i, hi5⟩ = { b4.get ⟨i, hi4⟩ with Date_last_renewal := w2 } := by
    injection hd2 with hd2
    exact hd2.symm
  have s2 : DateFieldOk w2 := cleanDateCell_ok_shape hcell2
  have hd3 := mapEx_ok_get h6 i hi5 hi6
  cases hcell3 : cleanDateCell ((b5.get ⟨i, hi5⟩).Date_next_renewal) with
  | error e => rw [hcell3] at hd3; simp [Except.map] at hd3
  | ok w3 =>
  rw [hcell3] at hd3
  simp only [Except.map] at hd3
  have e6 : b6.get ⟨i, hi6⟩ = { b5.get ⟨i, hi5⟩ with Date_next_renewal := w3 } := by
    injection hd3 with hd3
    exact hd3.symm
  have s3 : DateFieldOk w3 := cleanDateCell_ok_shape hcell3
  have hd4 := mapEx_ok_get h7 i hi6 hi7
  cases hcell4 : cleanDateCell ((b6.get ⟨i, hi6⟩).Date_birth) with
  | error e => rw [hcell4] at hd4; simp [Except.map] at hd4
  | ok w4 =>
  rw [hcell4] at hd4
  simp only [Except.map] at hd4
  have e7 : b7.get ⟨i, hi7⟩ = { b6.get ⟨i, hi6⟩ with Date_birth := w4 } := by
    injection hd4 with hd4
    exact hd4.symm
  have s4 : DateFieldOk w4 := cleanDateCell_ok_shape hcell4
  have hd5 := mapEx_ok_get h8 i hi7 hi8
  cases hcell5 : cleanDateCell ((b7.get ⟨i, hi7⟩).Date_driving_licence) with
  | error e => rw [hcell5] at hd5; simp [Except.map] at hd5
  | ok w5 =>
  rw [hcell5] at hd5
  simp only [Except.map] at hd5
  have e8 : b8.get ⟨i, hi8⟩ = { b7.get ⟨i, hi7⟩ with Date_driving_licence := w5 } := by
    injection hd5 with hd5
    exact hd5.symm
  have s5 : DateFieldOk w5 := cleanDateCell_ok_shape hcell5
  have hd6 := mapEx_ok_get h9 i hi8 hi9
  cases hcell6 : cleanDateCell ((b8.get ⟨i, hi8⟩).Date_lapse) with
  | error e => rw [hcell6] at hd6; simp [Except.map] at hd6
  | ok w6 =>
  rw [hcell6] at hd6
  simp only [Except.map] at hd6
  have e9 : b9.get ⟨i, hi9⟩ = { b8.get ⟨i, hi8⟩ with Date_lapse := w6 } := by
    injection hd6 with hd6
    exact hd6.symm
  have s6 : DateFieldOk w6 := cleanDateCell_ok_shape hcell6
  have e2 : (fillLengthPass (fillTypeFuelPass b)).get ⟨i, hi2⟩ =
      { b.get ⟨i, h1⟩ with
          Type_fuel := fillUnknown ((b.get ⟨i, h1⟩).Type_fuel),
          Length := fillMean (meanLength b) ((b.get ⟨i, h1⟩).Length) } := by
    unfold fillLengthPass
    rw [List.get_map]
    simp only [meanLength_fillTypeFuelPass]
    unfold fillTypeFuelPass
    rw [List.get_map]
  refine ⟨b9.get ⟨i, hi9⟩, ?_, ?_, ?_, ⟨n, ?_, ?_⟩, ?_, ?_, ?_, ?_, ?_, ?_, ?_⟩
  · subst hout
    rw [List.get_map, List.get_map, List.get_map]
  · rw [e9, e8, e7, e6, e5, e4, e3, e2]
  · rw [e9, e8, e7, e6, e5, e4, e3, e2]
  · rw [e2] at ha
    exact ha
  · rw [e9, e8, e7, e6, e5, e4, e3]
  · rw [e9, e8, e7, e6, e5, e4, e3, e2]
  · rw [e9, e8, e7, e6, e5, e4]
    exact s1
  · rw [e9, e8, e7, e6, e5]
    exact s2
  · rw [e9, e8, e7, e6]
    exact s3
  · rw [e9, e8, e7]
    exact s4
  · rw [e9, e8]
    exact s5
  · rw [e9]
    exact s6

/-! ### Small projection and update lemmas -/

theorem isNotNull_false_iff (v : DateVal) : v.isNotNull = false ↔ v = .null := by
  cases v <;> simp [DateVal.isNotNull]

theorem isNotNull_true_of_ne {v : DateVal} (h : v ≠ .null) : v.isNotNull = true := by
  cases v <;> simp_all [DateVal.isNotNull]

theorem dvGt_true_iff (a b : DateVal) :
    dvGt a b = true ↔
      ∃ d1 z1 d2 z2, a = .ts d1 z1 ∧ b = .ts d2 z2 ∧ d2.code < d1.code := by
  cases a <;> cases b <;> simp [dvGt]

theorem fixL_Type_fuel (r : Row) : (fixLapseWithoutDate r).Type_fuel = r.Type_fuel := by
  rcases fixLapse_cases r with h | h <;> rw [h]

theorem fixL_Length (r : Row) : (fixLapseWithoutDate r).Length = r.Length := by
  rcases fixLapse_cases r with h | h <;> rw [h]

theorem fixL_chan (r : Row) :
    (fixLapseWithoutDate r).Distribution_channel = r.Distribution_channel := by
  rcases fixLapse_cases r with h | h <;> rw [h]

theorem fixL_Lapse (r : Row) : (fixLapseWithoutDate r).Lapse = r.Lapse := by
  rcases fixLapse_cases r with h | h <;> rw [h]

theorem fixL_start (r : Row) :
    (fixLapseWithoutDate r).Date_start_contract = r.Date_start_contract := by
  rcases fixLapse_cases r with h | h <;> rw [h]

theorem fixL_last (r : Row) :
    (fixLapseWithoutDate r).Date_last_renewal = r.Date_last_renewal := by
  rcases fixLapse_cases r with h | h <;> rw [h]

theorem fixL_next (r : Row) :
    (fixLapseWithoutDate r).Date_next_renewal = r.Date_next_renewal := by
  rcases fixLapse_cases r with h | h <;> rw [h]

theorem fixL_birth (r : Row) : (fixLapseWithoutDate r).Date_birth = r.Date_birth := by
  rcases fixLapse_cases r with h | h <;> rw [h]

theorem fixL_licence (r : Row) :
    (fixLapseWithoutDate r).Date_driving_licence = r.Date_driving_licence := by
  rcases fixLapse_cases r with h | h <;> rw [h]

theorem fixR_Type_fuel (r : Row) : (fixRenewalAfterLapse r).Type_fuel = r.Type_fuel := by
  rcases fixRenewal_cases r with h | h <;> rw [h]

theorem fixR_Length (r : Row) : (fixRenewalAfterLapse r).Length = r.Length := by
  rcases fixRenewal_cases r with h | h <;> rw [h]

theorem fixR_chan (r : Row) :
    (fixRenewalAfterLapse r).Distribution_channel = r.Distribution_channel := by
  rcases fixRenewal_cases r with h | h <;> rw [h]

theorem fixR_Lapse (r : Row) : (fixRenewalAfterLapse r).Lapse = r.Lapse := by
  rcases fixRenewal_cases r with h | h <;> rw [h]

theorem fixR_start (r : Row) :
    (fixRenewalAfterLapse r).Date_start_contract = r.Date_start_contract := by
  rcases fixRenewal_cases r with h | h <;> rw [h]

theorem fixR_lapsedate (r : Row) : (fixRenewalAfterLapse r).Date_lapse = r.Date_lapse := by
  rcases fixRenewal_cases r with h | h <;> rw [h]

theorem fixR_next (r : Row) :
    (fixRenewalAfterLapse r).Date_next_renewal = r.Date_next_renewal := by
  rcases fixRenewal_cases r with h | h <;> rw [h]

theorem fixR_birth (r : Row) : (fixRenewalAfterLapse r).Date_birth = r.Date_birth := by
  rcases fixRenewal_cases r with h | h <;> rw [h]

theorem fixR_licence (r : Row) :
    (fixRenewalAfterLapse r).Date_driving_licence = r.Date_driving_licence := by
  rcases fixRenewal_cases r with h | h <;> rw [h]

theorem update_Type_fuel_self {r : Row} {v : Option String} (h : r.Type_fuel = v) :
    { r with Type_fuel := v } = r := by
  rw [← h]

theorem update_Length_self {r : Row} {v : Option ℚ} (h : r.Length = v) :
    { r with Length := v } = r := by
  rw [← h]

theorem update_chan_self {r : Row} {v : ChanVal} (h : r.Distribution_channel = v) :
    { r with Distribution_channel := v } = r := by
  rw [← h]

theorem update_start_self {r : Row} {v : DateVal} (h : r.Date_start_contract = v) :
    { r with Date_start_contract := v } = r := by
  rw [← h]

theorem update_last_self {r : Row} {v : DateVal} (h : r.Date_last_renewal = v) :
    { r with Date_last_renewal := v } = r := by
  rw [← h]

theorem update_next_self {r : Row} {v : DateVal} (h : r.Date_next_renewal = v) :
    { r with Date_next_renewal := v } = r := by
  rw [← h]

theorem update_birth_self {r : Row} {v : DateVal} (h : r.Date_birth = v) :
    { r with Date_birth := v } = r := by
  rw [← h]

theorem update_licence_self {r : Row} {v : DateVal} (h : r.Date_driving_licence = v) :
    { r with Date_driving_licence := v } = r := by
  rw [← h]

theorem update_lapsedate_self {r : Row} {v : DateVal} (h : r.Date_lapse = v) :
    { r with Date_lapse := v } = r := by
  rw [← h]

/-! ### Shape of the rows of a successful output batch -/

theorem clean_ok_out_shape {b out : List Row} (h : clean b = .ok out) {r : Row}
    (hr : r ∈ out) :
    (∃ s, r.Type_fuel = some s) ∧ (∃ n, r.Distribution_channel = ChanVal.int n) ∧
    DateFieldOk r.Date_start_contract ∧ DateFieldOk r.Date_last_renewal ∧
    DateFieldOk r.Date_next_renewal ∧ DateFieldOk r.Date_birth ∧
    DateFieldOk r.Date_driving_licence ∧ DateFieldOk r.Date_lapse := by
  obtain ⟨hl, hget⟩ := clean_ok_get h
  obtain ⟨n, hn⟩ := List.mem_iff_get.mp hr
  have h1 : n.1 < b.length := by rw [← hl]; exact n.2
  obtain ⟨r9, hcomp, htf, hlen, hchan, hlap, s1, s2, s3, s4, s5, s6⟩ := hget n.1 h1 n.2
  have hr9 : r = addFlag (fixRenewalAfterLapse (fixLapseWithoutDate r9)) := by
    rw [← hn]; exact hcomp
  subst hr9
  refine ⟨?_, ?_, ?_, ?_, ?_, ?_, ?_, ?_⟩
  · show ∃ s, (fixRenewalAfterLapse (fixLapseWithoutDate r9)).Type_fuel = some s
    rw [fixR_Type_fuel, fixL_Type_fuel, htf]
    cases (b.get ⟨n.1, h1⟩).Type_fuel <;> exact ⟨_, rfl⟩
  · obtain ⟨m, _, hm⟩ := hchan
    exact ⟨m, by show (fixRenewalAfterLapse (fixLapseWithoutDate r9)).Distribution_channel = _
                 rw [fixR_chan, fixL_chan, hm]⟩
  · show DateFieldOk (fixRenewalAfterLapse (fixLapseWithoutDate r9)).Date_start_contract
    rw [fixR_start, fixL_start]
    exact s1
  · show DateFieldOk (fixRenewalAfterLapse (fixLapseWithoutDate r9)).Date_last_renewal
    rcases fixRenewal_cases (fixLapseWithoutDate r9) with hx | hx
    · rw [hx, fixL_last]
      exact s2
    · rw [hx]
      exact Or.inl rfl
  · show DateFieldOk (fixRenewalAfterLapse (fixLapseWithoutDate r9)).Date_next_renewal
    rw [fixR_next, fixL_next]
    exact s3
  · show DateFieldOk (fixRenewalAfterLapse (fixLapseWithoutDate r9)).Date_birth
    rw [fixR_birth, fixL_birth]
    exact s4
  · show DateFieldOk (fixRenewalAfterLapse (fixLapseWithoutDate r9)).Date_driving_licence
    rw [fixR_licence, fixL_licence]
    exact s5
  · show DateFieldOk (fixRenewalAfterLapse (fixLapseWithoutDate r9)).Date_lapse
    rw [fixR_lapsedate]
    rcases fixLapse_cases r9 with hx | hx
    · rw [hx]
      exact s6
    · rw [hx]
      exact Or.inl rfl

/-! ### Identity behaviour of the passes on already-clean data, and error
propagation through the stage chain -/

theorem fillTypeFuelPass_id {l : List Row} (h : ∀ r ∈ l, ∃ s, r.Type_fuel = some s) :
    fillTypeFuelPass l = l := by
  apply map_eq_self_of
  intro r hr
  obtain ⟨s, hs⟩ := h r hr
  have htf : fillUnknown r.Type_fuel = r.Type_fuel := by rw [hs]; rfl
  show { r with Type_fuel := fillUnknown r.Type_fuel } = r
  exact update_Type_fuel_self htf.symm

theorem fillLengthPass_id {l : List Row}
    (h : ∀ r ∈ l, fillMean (meanLength l) r.Length = r.Length) :
    fillLengthPass l = l := by
  apply map_eq_self_of
  intro r hr
  show { r with Length := fillMean (meanLength l) r.Length } = r
  exact update_Length_self (h r hr).symm

theorem chanPass_id {l : List Row}
    (h : ∀ r ∈ l, ∃ n, r.Distribution_channel = ChanVal.int n) :
    chanPass l = .ok l := by
  apply mapEx_ok_id
  intro r hr
  obtain ⟨n, hn⟩ := h r hr
  rw [hn]
  exact congrArg Except.ok (update_chan_self hn)

theorem normCol_id_of_null {get : Row → DateVal} {set : Row → DateVal → Row} {l : List Row}
    (hset : ∀ r, get r = .null → set r .null = r)
    (h : ∀ r ∈ l, get r = .null) : normCol get set l = .ok l := by
  apply mapEx_ok_id
  intro r hr
  show Except.map (set r) (cleanDateCell (get r)) = _
  rw [h r hr, cleanDateCell_null_ok]
  show Except.ok (set r .null) = _
  rw [hset r (h r hr)]

theorem normCol_error_of_aware (get : Row → DateVal) (set : Row → DateVal → Row)
    {l : List Row} {r : Row} (hr : r ∈ l) {d : Date} {z : String}
    (hts : get r = .ts d (some z)) :
    ∃ e, normCol get set l = .error e := by
  apply mapEx_error_of_mem hr
  show Except.map (set r) (cleanDateCell (get r)) = Except.error CleanErr.cmpTzAwareNaive
  rw [hts, cleanDateCell_aware]
  rfl

/-- `meanLength` of a batch and the null/non-null split of its `Length`
column after a successful run: either every output `Length` is null (the
degenerate all-null batch) or every output `Length` is non-null. -/
theorem clean_ok_length_dichotomy {b out : List Row} (h : clean b = .ok out) :
    (∀ r ∈ out, r.Length = none) ∨ (∀ r ∈ out, ∃ q, r.Length = some q) := by
  obtain ⟨hl, hget⟩ := clean_ok_get h
  cases hm : meanLength b with
  | none =>
    left
    intro r hr
    obtain ⟨n, hn⟩ := List.mem_iff_get.mp hr
    have h1 : n.1 < b.length := by rw [← hl]; exact n.2
    obtain ⟨r9, hcomp, _, hlen, _⟩ := hget n.1 h1 n.2
    have hr9 : r = addFlag (fixRenewalAfterLapse (fixLapseWithoutDate r9)) := by
      rw [← hn]; exact hcomp
    subst hr9
    show (fixRenewalAfterLapse (fixLapseWithoutDate r9)).Length = none
    rw [fixR_Length, fixL_Length, hlen, hm]
    have hnil : b.filterMap Row.Length = [] := by
      by_contra hne
      unfold meanLength at hm
      rw [if_neg (by simpa [List.isEmpty_iff] using hne)] at hm
      cases hm
    have : ((b.get ⟨n.1, h1⟩).Length) = none := by
      have := List.filterMap_eq_nil.mp hnil (b.get ⟨n.1, h1⟩) (List.get_mem b n.1 h1)
      exact this
    rw [this]
    rfl
  | some q =>
    right
    intro r hr
    obtain ⟨n, hn⟩ := List.mem_iff_get.mp hr
    have h1 : n.1 < b.length := by rw [← hl]; exact n.2
    obtain ⟨r9, hcomp, _, hlen, _⟩ := hget n.1 h1 n.2
    have hr9 : r = addFlag (fixRenewalAfterLapse (fixLapseWithoutDate r9)) := by
      rw [← hn]; exact hcomp
    subst hr9
    show ∃ q', (fixRenewalAfterLapse (fixLapseWithoutDate r9)).Length = some q'
    rw [fixR_Length, fixL_Length, hlen, hm]
    cases (b.get ⟨n.1, h1⟩).Length <;> exact ⟨_, rfl⟩

/-- A raising `Distribution_channel` coercion for any row aborts the whole
`clean` call. -/
theorem mem_fillPasses {b : List Row} {r : Row} (hr : r ∈ b) :
    ∃ r2 ∈ fillLengthPass (fillTypeFuelPass b),
      r2.Distribution_channel = r.Distribution_channel := by
  unfold fillLengthPass fillTypeFuelPass
  exact ⟨_, List.mem_map.mpr ⟨_, List.mem_map.mpr ⟨r, hr, rfl⟩, rfl⟩, rfl⟩

theorem clean_error_of_chan_error {b : List Row} {r : Row} (hr : r ∈ b) {e : CleanErr}
    (he : astypeInt (replaceSentinel r.Distribution_channel) = .error e) :
    ∃ e', clean b = .error e' := by
  obtain ⟨r2, hr2, hchan2⟩ := mem_fillPasses hr
  have hfe : ∃ e', chanPass (fillLengthPass (fillTypeFuelPass b)) = .error e' := by
    apply mapEx_error_of_mem hr2
    show Except.map _ (astypeInt (replaceSentinel r2.Distribution_channel)) = _
    rw [hchan2, he]
    rfl
  obtain ⟨e', he'⟩ := hfe
  refine ⟨e', ?_⟩
  unfold clean
  rw [he']
  rfl

/-! ### Claim theorems -/

/-- C9: for every row, a null `type_fuel` is replaced with the literal string
"Unknown", non-null values are left unchanged, and after cleaning `type_fuel`
is never null. -/
theorem c9_type_fuel_imputation (b out : List Row) (h : clean b = .ok out) :
    out.length = b.length ∧
    ∀ (i : Nat) (h1 : i < b.length) (h2 : i < out.length),
      (out.get ⟨i, h2⟩).Type_fuel = some (((b.get ⟨i, h1⟩).Type_fuel).getD "Unknown") := by
  obtain ⟨hl, hget⟩ := clean_ok_get h
  refine ⟨hl, ?_⟩
  intro i h1 h2
  obtain ⟨r9, hcomp, htf, rest⟩ := hget i h1 h2
  rw [hcomp]
  show (fixRenewalAfterLapse (fixLapseWithoutDate r9)).Type_fuel = _
  rw [fixR_Type_fuel, fixL_Type_fuel, htf]
  cases (b.get ⟨i, h1⟩).Type_fuel <;> rfl

/-- C7: with at least one non-null input `length`, every null `length` is
replaced by exactly the batch mean of the original non-null values, computed
once before replacement; non-null values are unchanged and no null remains. -/
theorem c7_length_mean_imputation (b out : List Row) (h : clean b = .ok out)
    (hne : b.filterMap Row.Length ≠ []) :
    out.length = b.length ∧
    ∀ (i : Nat) (h1 : i < b.length) (h2 : i < out.length),
      (out.get ⟨i, h2⟩).Length =
        some (((b.get ⟨i, h1⟩).Length).getD
          ((b.filterMap Row.Length).sum / ((b.filterMap Row.Length).length : ℚ))) := by
  obtain ⟨hl, hget⟩ := clean_ok_get h
  refine ⟨hl, ?_⟩
  intro i h1 h2
  obtain ⟨r9, hcomp, _, hlen, rest⟩ := hget i h1 h2
  rw [hcomp]
  show (fixRenewalAfterLapse (fixLapseWithoutDate r9)).Length = _
  rw [fixR_Length, fixL_Length, hlen]
  have hm : meanLength b =
      some ((b.filterMap Row.Length).sum / ((b.filterMap Row.Length).length : ℚ)) := by
    unfold meanLength
    rw [if_neg (by simpa [List.isEmpty_iff] using hne)]
  rw [hm]
  cases (b.get ⟨i, h1⟩).Length <;> rfl

/-- C3: for every cleaned row with `lapse_status = 0`, the lapse date is
null: the cleaner nulls any non-null `lapse` on such a row and no cleaned
record with `lapse_status = 0` carries a lapse date. -/
theorem c3_lapse_status_zero_no_lapse_date (b out : List Row) (r : Row)
    (h : clean b = .ok out) (hr : r ∈ out) (h0 : r.Lapse = 0) :
    r.Date_lapse = .null := by
  obtain ⟨hl, hget⟩ := clean_ok_get h
  obtain ⟨n, hn⟩ := List.mem_iff_get.mp hr
  have h1 : n.1 < b.length := by rw [← hl]; exact n.2
  obtain ⟨r9, hcomp, rest⟩ := hget n.1 h1 n.2
  have hr9 : r = addFlag (fixRenewalAfterLapse (fixLapseWithoutDate r9)) := by
    rw [← hn]; exact hcomp
  subst hr9
  have h09 : r9.Lapse = 0 := by
    have hLap : (fixRenewalAfterLapse (fixLapseWithoutDate r9)).Lapse = r9.Lapse := by
      rw [fixR_Lapse, fixL_Lapse]
    exact hLap ▸ h0
  show (fixRenewalAfterLapse (fixLapseWithoutDate r9)).Date_lapse = .null
  rw [fixR_lapsedate]
  unfold fixLapseWithoutDate
  by_cases hc : r9.Lapse = 0 ∧ r9.Date_lapse.isNotNull = true
  · rw [if_pos hc]
  · rw [if_neg hc]
    have hnb : ¬ (r9.Date_lapse.isNotNull = true) := fun hb => hc ⟨h09, hb⟩
    have hfalse : r9.Date_lapse.isNotNull = false := by
      cases hb : r9.Date_lapse.isNotNull
      · rfl
      · exact absurd hb hnb
    exact (isNotNull_false_iff _).mp hfalse

/-- C2: for every cleaned row with `lapse_status ∈ {1,2}` and a non-null
lapse date, the last-renewal date is null or at most the lapse date; the
rule reads the lapse date already corrected by the lapse-without-date rule,
nulls only `last_renewal`, and a null operand makes the condition false. -/
theorem c2_renewal_after_lapse_invariant (b out : List Row) (r : Row)
    (h : clean b = .ok out) (hr : r ∈ out)
    (hst : r.Lapse = 1 ∨ r.Lapse = 2) (hnn : r.Date_lapse ≠ .null) :
    r.Date_last_renewal = .null ∨
      ∃ d1 d2 z1 z2, r.Date_last_renewal = .ts d1 z1 ∧ r.Date_lapse = .ts d2 z2 ∧
        d1.code ≤ d2.code := by
  obtain ⟨hl, hget⟩ := clean_ok_get h
  obtain ⟨n, hn⟩ := List.mem_iff_get.mp hr
  have h1 : n.1 < b.length := by rw [← hl]; exact n.2
  obtain ⟨r9, hcomp, _, _, _, _, _, sLast, _, _, _, sLapse⟩ := hget n.1 h1 n.2
  have hr9 : r = addFlag (fixRenewalAfterLapse (fixLapseWithoutDate r9)) := by
    rw [← hn]; exact hcomp
  subst hr9
  by_cases hc : ((fixLapseWithoutDate r9).Lapse = 1 ∨ (fixLapseWithoutDate r9).Lapse = 2) ∧
      (fixLapseWithoutDate r9).Date_lapse.isNotNull = true ∧
      dvGt (fixLapseWithoutDate r9).Date_last_renewal (fixLapseWithoutDate r9).Date_lapse = true
  · left
    show (fixRenewalAfterLapse (fixLapseWithoutDate r9)).Date_last_renewal = .null
    unfold fixRenewalAfterLapse
    rw [if_pos hc]
  · have hfix : fixRenewalAfterLapse (fixLapseWithoutDate r9) = fixLapseWithoutDate r9 := by
      unfold fixRenewalAfterLapse
      rw [if_neg hc]
    rw [hfix] at hst hnn ⊢
    have hA : (fixLapseWithoutDate r9).Lapse = 1 ∨ (fixLapseWithoutDate r9).Lapse = 2 := hst
    have hnn' : (fixLapseWithoutDate r9).Date_lapse ≠ .null := hnn
    have hB : (fixLapseWithoutDate r9).Date_lapse.isNotNull = true := isNotNull_true_of_ne hnn'
    have hC : dvGt (fixLapseWithoutDate r9).Date_last_renewal
        (fixLapseWithoutDate r9).Date_lapse = false := by
      cases hdv : dvGt (fixLapseWithoutDate r9).Date_last_renewal
          (fixLapseWithoutDate r9).Date_lapse
      · rfl
      · exact absurd ⟨hA, hB, hdv⟩ hc
    show (fixLapseWithoutDate r9).Date_last_renewal = .null ∨ _
    rcases fixLapse_cases r9 with hx | hx
    · rw [hx] at hnn' hC ⊢
      rcases sLast with hnull | ⟨d1, hts1, hfloor1⟩
      · left
        exact hnull
      · rcases sLapse with hnull2 | ⟨d2, hts2, hfloor2⟩
        · exact absurd hnull2 hnn'
        · right
          rw [hts1, hts2] at hC
          refine ⟨d1, d2, some "UTC", some "UTC", hts1, hts2, ?_⟩
          have : ¬ (d2.code < d1.code) := by simpa [dvGt] using hC
          exact Nat.le_of_not_lt this
    · rw [hx] at hnn'
      exact absurd rfl hnn'

/-- C4: for every cleaned row, `flag_invalid_start_vs_last` is present as an
integer, equal to 1 exactly when both dates are non-null timestamps with
`start_contract > last_renewal`, 0 otherwise (nulls compare false), and the
flag assignment leaves both dates unchanged. -/
theorem c4_flag_invalid_start_vs_last (b out : List Row) (r : Row)
    (h : clean b = .ok out) (hr : r ∈ out) :
    (∀ x : Row, (addFlag x).Date_start_contract = x.Date_start_contract ∧
      (addFlag x).Date_last_renewal = x.Date_last_renewal) ∧
    (r.flag_invalid_start_vs_last = some 1 ∨ r.flag_invalid_start_vs_last = some 0) ∧
    (r.flag_invalid_start_vs_last = some 1 ↔
      ∃ d1 d2 z1 z2, r.Date_start_contract = .ts d1 z1 ∧ r.Date_last_renewal = .ts d2 z2 ∧
        d2.code < d1.code) := by
  obtain ⟨hl, hget⟩ := clean_ok_get h
  obtain ⟨n, hn⟩ := List.mem_iff_get.mp hr
  have h1 : n.1 < b.length := by rw [← hl]; exact n.2
  obtain ⟨r9, hcomp, rest⟩ := hget n.1 h1 n.2
  have hr9 : r = addFlag (fixRenewalAfterLapse (fixLapseWithoutDate r9)) := by
    rw [← hn]; exact hcomp
  subst hr9
  refine ⟨fun x => ⟨rfl, rfl⟩, ?_, ?_⟩
  · cases hdv : dvGt (fixRenewalAfterLapse (fixLapseWithoutDate r9)).Date_start_contract
        (fixRenewalAfterLapse (fixLapseWithoutDate r9)).Date_last_renewal
    · right
      show (some (if dvGt (fixRenewalAfterLapse (fixLapseWithoutDate r9)).Date_start_contract
          (fixRenewalAfterLapse (fixLapseWithoutDate r9)).Date_last_renewal = true
          then (1 : Int) else 0) : Option Int) = some 0
      rw [hdv]
      rfl
    · left
      show (some (if dvGt (fixRenewalAfterLapse (fixLapseWithoutDate r9)).Date_start_contract
          (fixRenewalAfterLapse (fixLapseWithoutDate r9)).Date_last_renewal = true
          then (1 : Int) else 0) : Option Int) = some 1
      rw [hdv]
      rfl
  · cases hdv : dvGt (fixRenewalAfterLapse (fixLapseWithoutDate r9)).Date_start_contract
        (fixRenewalAfterLapse (fixLapseWithoutDate r9)).Date_last_renewal
    · constructor
      · intro h1'
        have h0 : (some (if dvGt (fixRenewalAfterLapse (fixLapseWithoutDate r9)).Date_start_contract
            (fixRenewalAfterLapse (fixLapseWithoutDate r9)).Date_last_renewal = true
            then (1 : Int) else 0) : Option Int) = some 1 := h1'
        rw [hdv] at h0
        simp at h0
      · intro hex
        obtain ⟨d1, d2, z1, z2, hs1, hs2, hlt⟩ := hex
        have : dvGt (fixRenewalAfterLapse (fixLapseWithoutDate r9)).Date_start_contract
            (fixRenewalAfterLapse (fixLapseWithoutDate r9)).Date_last_renewal = true := by
          rw [show (addFlag (fixRenewalAfterLapse (fixLapseWithoutDate r9))).Date_start_contract
              = (fixRenewalAfterLapse (fixLapseWithoutDate r9)).Date_start_contract from rfl] at hs1
          rw [show (addFlag (fixRenewalAfterLapse (fixLapseWithoutDate r9))).Date_last_renewal
              = (fixRenewalAfterLapse (fixLapseWithoutDate r9)).Date_last_renewal from rfl] at hs2
          rw [hs1, hs2]
          simpa [dvGt] using hlt
        rw [this] at hdv
        cases hdv
    · constructor
      · intro _
        obtain ⟨d1, z1, d2, z2, hs1, hs2, hlt⟩ := (dvGt_true_iff _ _).mp hdv
        exact ⟨d1, d2, z1, z2, hs1, hs2, hlt⟩
      · intro _
        show (some (if dvGt (fixRenewalAfterLapse (fixLapseWithoutDate r9)).Date_start_contract
            (fixRenewalAfterLapse (fixLapseWithoutDate r9)).Date_last_renewal = true
            then (1 : Int) else 0) : Option Int) = some 1
        rw [hdv]
        rfl

/-- C5: after cleaning, each of the six date fields is null or a UTC-tagged
timestamp at or after the floor 0001-01-01; unparseable text becomes null
without an error, a parsed date below the floor becomes null, and the UTC
tagging preserves the wall-clock value. -/
theorem c5_date_fields_normalized (b out : List Row) (r : Row)
    (h : clean b = .ok out) (hr : r ∈ out) :
    (DateFieldOk r.Date_start_contract ∧ DateFieldOk r.Date_last_renewal ∧
     DateFieldOk r.Date_next_renewal ∧ DateFieldOk r.Date_birth ∧
     DateFieldOk r.Date_driving_licence ∧ DateFieldOk r.Date_lapse) ∧
    (∀ s, parseDayFirst s = none → cleanDateCell (.text s) = .ok .null) ∧
    (∀ s d, parseDayFirst s = some d → d.code < tsLimit →
      cleanDateCell (.text s) = .ok .null) ∧
    (∀ d, tzLocalizeUtc (.ts d none) = .ok (.ts d (some "UTC"))) := by
  obtain ⟨_, _, s1, s2, s3, s4, s5, s6⟩ := clean_ok_out_shape h hr
  refine ⟨⟨s1, s2, s3, s4, s5, s6⟩, ?_, ?_, fun d => rfl⟩
  · intro s hs
    simp [cleanDateCell, toDatetime, hs, floorFilter, tzLocalizeUtc, Bind.bind, Except.bind]
  · intro s d hs hlt
    simp [cleanDateCell, toDatetime, hs, floorFilter, tzLocalizeUtc, hlt,
      Bind.bind, Except.bind]

/-- C6: the exact sentinel string maps to the integer 0, every cleaned row
carries an integer `distribution_channel`, and a value whose coercion fails
aborts the whole `clean` call. -/
theorem c6_distribution_channel_rules :
    (astypeInt (replaceSentinel (ChanVal.str "00/01/1900")) = .ok 0) ∧
    (∀ b out : List Row, ∀ r : Row, clean b = .ok out → r ∈ out →
      ∃ n : Int, r.Distribution_channel = ChanVal.int n) ∧
    (∀ b : List Row, ∀ r : Row, ∀ e : CleanErr, r ∈ b →
      astypeInt (replaceSentinel r.Distribution_channel) = .error e →
      ∃ e', clean b = .error e') := by
  refine ⟨by rfl, ?_, ?_⟩
  · intro b out r h hr
    exact (clean_ok_out_shape h hr).2.1
  · intro b r e hr he
    exact clean_error_of_chan_error hr he

/-- C10: a true null in `distribution_channel` cannot be represented by the
integer coercion, so any batch containing one makes the whole `clean` call
fail with nothing written, exactly like unexpected garbage. -/
theorem c10_null_channel_aborts (b : List Row) (r : Row) (hr : r ∈ b)
    (hnull : r.Distribution_channel = ChanVal.null) : ∃ e, clean b = .error e := by
  apply clean_error_of_chan_error hr
  rw [hnull]
  rfl

/-! ### Re-running the cleaner on its own output -/

theorem bind_ok_reduce {α β : Type} {g : α → Except CleanErr β} (v : α) :
    (Except.ok v >>= g) = g v := rfl

theorem bind_error_reduce {α β : Type} {g : α → Except CleanErr β} (e : CleanErr) :
    ((Except.error e : Except CleanErr α) >>= g) = .error e := rfl

/-- C8 (amended): `clean` is not idempotent — re-applying it to a cleaned
batch that contains any non-null date value fails, because cleaned date
columns already carry the UTC annotation, which the tz-naive floor
comparison of the date loop rejects. -/
theorem c8_second_clean_fails (b out : List Row) (h : clean b = .ok out)
    (hts : ∃ r, r ∈ out ∧ ∃ d z,
      r.Date_start_contract = DateVal.ts d z ∨ r.Date_last_renewal = DateVal.ts d z ∨
        r.Date_next_renewal = DateVal.ts d z ∨ r.Date_birth = DateVal.ts d z ∨
        r.Date_driving_licence = DateVal.ts d z ∨ r.Date_lapse = DateVal.ts d z) :
    ∃ e, clean out = .error e := by
  have htf : fillTypeFuelPass out = out :=
    fillTypeFuelPass_id (fun r hr => (clean_ok_out_shape h hr).1)
  have hfl : fillLengthPass out = out := by
    apply fillLengthPass_id
    intro r hr
    rcases clean_ok_length_dichotomy h with hall | hall
    · have hnil : out.filterMap Row.Length = [] := List.filterMap_eq_nil.mpr hall
      have hmean : meanLength out = none := by
        unfold meanLength
        rw [hnil]
        rfl
      rw [hall r hr, hmean]
      rfl
    · obtain ⟨q, hq⟩ := hall r hr
      rw [hq]
      rfl
  have hchan : chanPass out = .ok out :=
    chanPass_id (fun r hr => (clean_ok_out_shape h hr).2.1)
  by_cases hc1 : ∃ r ∈ out, ∃ d z, r.Date_start_contract = DateVal.ts d (some z)
  · obtain ⟨r1, hr1, d1, z1, hts1⟩ := hc1
    obtain ⟨e1, he1⟩ := normCol_error_of_aware (fun r => r.Date_start_contract)
      (fun r v => { r with Date_start_contract := v }) hr1 hts1
    refine ⟨e1, ?_⟩
    unfold clean
    rw [htf, hfl, hchan]
    simp only [bind_ok_reduce]
    rw [he1]
    simp only [bind_error_reduce]
  · have hnull1 : ∀ r ∈ out, r.Date_start_contract = DateVal.null := by
      intro r hr
      rcases (clean_ok_out_shape h hr).2.2.1 with hn | ⟨d, hd, _⟩
      · exact hn
      · exact absurd ⟨r, hr, d, "UTC", hd⟩ hc1
    have hid1 : normCol (fun r => r.Date_start_contract)
        (fun r v => { r with Date_start_contract := v }) out = .ok out :=
      normCol_id_of_null (fun r hrn => update_start_self hrn) hnull1
    by_cases hc2 : ∃ r ∈ out, ∃ d z, r.Date_last_renewal = DateVal.ts d (some z)
    · obtain ⟨r2, hr2, d2, z2, hts2⟩ := hc2
      obtain ⟨e2, he2⟩ := normCol_error_of_aware (fun r => r.Date_last_renewal)
        (fun r v => { r with Date_last_renewal := v }) hr2 hts2
      refine ⟨e2, ?_⟩
      unfold clean
      rw [htf, hfl, hchan]
      simp only [bind_ok_reduce]
      rw [hid1]
      simp only [bind_ok_reduce]
      rw [he2]
      simp only [bind_error_reduce]
    · have hnull2 : ∀ r ∈ out, r.Date_last_renewal = DateVal.null := by
        intro r hr
        rcases (clean_ok_out_shape h hr).2.2.2.1 with hn | ⟨d, hd, _⟩
        · exact hn
        · exact absurd ⟨r, hr, d, "UTC", hd⟩ hc2
      have hid2 : normCol (fun r => r.Date_last_renewal)
          (fun r v => { r with Date_last_renewal := v }) out = .ok out :=
        normCol_id_of_null (fun r hrn => update_last_self hrn) hnull2
      by_cases hc3 : ∃ r ∈ out, ∃ d z, r.Date_next_renewal = DateVal.ts d (some z)
      · obtain ⟨r3, hr3, d3, z3, hts3⟩ := hc3
        obtain ⟨e3, he3⟩ := normCol_error_of_aware (fun r => r.Date_next_renewal)
          (fun r v => { r with Date_next_renewal := v }) hr3 hts3
        refine ⟨e3, ?_⟩
        unfold clean
        rw [htf, hfl, hchan]
        simp only [bind_ok_reduce]
        rw [hid1]
        simp only [bind_ok_reduce]
        rw [hid2]
        simp only [bind_ok_reduce]
        rw [he3]
        simp only [bind_error_reduce]
      · have hnull3 : ∀ r ∈ out, r.Date_next_renewal = DateVal.null := by
          intro r hr
          rcases (clean_ok_out_shape h hr).2.2.2.2.1 with hn | ⟨d, hd, _⟩
          · exact hn
          · exact absurd ⟨r, hr, d, "UTC", hd⟩ hc3
        have hid3 : normCol (fun r => r.Date_next_renewal)
            (fun r v => { r with Date_next_renewal := v }) out = .ok out :=
          normCol_id_of_null (fun r hrn => update_next_self hrn) hnull3
        by_cases hc4 : ∃ r ∈ out, ∃ d z, r.Date_birth = DateVal.ts d (some z)
        · obtain ⟨r4, hr4, d4, z4, hts4⟩ := hc4
          obtain ⟨e4, he4⟩ := normCol_error_of_aware (fun r => r.Date_birth)
            (fun r v => { r with Date_birth := v }) hr4 hts4
          refine ⟨e4, ?_⟩
          unfold clean
          rw [htf, hfl, hchan]
          simp only [bind_ok_reduce]
          rw [hid1]
          simp only [bind_ok_reduce]
          rw [hid2]
          simp only [bind_ok_reduce]
          rw [hid3]
          simp only [bind_ok_reduce]
          rw [he4]
          simp only [bind_error_reduce]
        · have hnull4 : ∀ r ∈ out, r.Date_birth = DateVal.null := by
            intro r hr
            rcases (clean_ok_out_shape h hr).2.2.2.2.2.1 with hn | ⟨d, hd, _⟩
            · exact hn
            · exact absurd ⟨r, hr, d, "UTC", hd⟩ hc4
          have hid4 : normCol (fun r => r.Date_birth)
              (fun r v => { r with Date_birth := v }) out = .ok out :=
            normCol_id_of_null (fun r hrn => update_birth_self hrn) hnull4
          by_cases hc5 : ∃ r ∈ out, ∃ d z, r.Date_driving_licence = DateVal.ts d (some z)
          · obtain ⟨r5, hr5, d5, z5, hts5⟩ := hc5
            obtain ⟨e5, he5⟩ := normCol_error_of_aware (fun r => r.Date_driving_licence)
              (fun r v => { r with Date_driving_licence := v }) hr5 hts5
            refine ⟨e5, ?_⟩
            unfold clean
            rw [htf, hfl, hchan]
            simp only [bind_ok_reduce]
            rw [hid1]
            simp only [bind_ok_reduce]
            rw [hid2]
            simp only [bind_ok_reduce]
            rw [hid3]
            simp only [bind_ok_reduce]
            rw [hid4]
            simp only [bind_ok_reduce]
            rw [he5]
            simp only [bind_error_reduce]
          · have hnull5 : ∀ r ∈ out, r.Date_driving_licence = DateVal.null := by
              intro r hr
              rcases (clean_ok_out_shape h hr).2.2.2.2.2.2.1 with hn | ⟨d, hd, _⟩
              · exact hn
              · exact absurd ⟨r, hr, d, "UTC", hd⟩ hc5
            have hid5 : normCol (fun r => r.Date_driving_licence)
                (fun r v => { r with Date_driving_licence := v }) out = .ok out :=
              normCol_id_of_null (fun r hrn => update_licence_self hrn) hnull5
            by_cases hc6 : ∃ r ∈ out, ∃ d z, r.Date_lapse = DateVal.ts d (some z)
            · obtain ⟨r6, hr6, d6, z6, hts6⟩ := hc6
              obtain ⟨e6, he6⟩ := normCol_error_of_aware (fun r => r.Date_lapse)
                (fun r v => { r with Date_lapse := v }) hr6 hts6
              refine ⟨e6, ?_⟩
              unfold clean
              rw [htf, hfl, hchan]
              simp only [bind_ok_reduce]
              rw [hid1]
              simp only [bind_ok_reduce]
              rw [hid2]
              simp only [bind_ok_reduce]
              rw [hid3]
              simp only [bind_ok_reduce]
              rw [hid4]
              simp only [bind_ok_reduce]
              rw [hid5]
              simp only [bind_ok_reduce]
              rw [he6]
              simp only [bind_error_reduce]
            · exfalso
              have hnull6 : ∀ r ∈ out, r.Date_lapse = DateVal.null := by
                intro r hr
                rcases (clean_ok_out_shape h hr).2.2.2.2.2.2.2 with hn | ⟨d, hd, _⟩
                · exact hn
                · exact absurd ⟨r, hr, d, "UTC", hd⟩ hc6
              obtain ⟨r0, hr0, d0, z0, hcase⟩ := hts
              rcases hcase with h0 | h0 | h0 | h0 | h0 | h0
              · rw [hnull1 r0 hr0] at h0
                cases h0
              · rw [hnull2 r0 hr0] at h0
                cases h0
              · rw [hnull3 r0 hr0] at h0
                cases h0
              · rw [hnull4 r0 hr0] at h0
                cases h0
              · rw [hnull5 r0 hr0] at h0
                cases h0
              · rw [hnull6 r0 hr0] at h0
                cases h0

/-! ### Concrete batches: the C1/C8 evaluations and the witnesses -/

/-- A benign sample record used to build the concrete batches below. -/
def baseRow : Row := {
  Type_fuel := some "base", Length := some 1, Distribution_channel := .int 1,
  Date_start_contract := .null, Date_last_renewal := .null, Date_next_renewal := .null,
  Date_birth := .null, Date_driving_licence := .null, Date_lapse := .null,
  Lapse := 0, flag_invalid_start_vs_last := none }

def c1Batch : List Row := [{ baseRow with Type_fuel := some "P", Length := none }]

def c1Out : List Row := [{ baseRow with Type_fuel := some "P", Length := none, flag_invalid_start_vs_last := some 0 }]

/-- C1: on a batch whose every `length` value is null, `clean` does not fail
at all: it succeeds and keeps the null `length` (the pandas `mean()` of an
all-null column is `NaN` and `fillna(NaN)` is a no-op), so no
`DataQualityError` is raised and the output is written with a null numeric
`length`. -/
theorem c1_all_null_length_no_failure :
    clean c1Batch = .ok c1Out ∧ c1Out.map Row.Length = [none] := by
  constructor
  · with_unfolding_all rfl
  · rfl

def c2Batch : List Row := [{ baseRow with Length := some 4, Distribution_channel := .int 2, Date_last_renewal := .text "01/06/2020", Date_lapse := .text "01/01/2020", Lapse := 1 }]

def c2OutRow : Row := { baseRow with Length := some 4, Distribution_channel := .int 2, Date_last_renewal := .null, Date_lapse := .ts ⟨2020, 1, 1⟩ (some "UTC"), Lapse := 1, flag_invalid_start_vs_last := some 0 }

theorem c2_witness :
    c2OutRow.Date_last_renewal = DateVal.null ∨
      ∃ d1 d2 z1 z2, c2OutRow.Date_last_renewal = DateVal.ts d1 z1 ∧
        c2OutRow.Date_lapse = DateVal.ts d2 z2 ∧ d1.code ≤ d2.code :=
  c2_renewal_after_lapse_invariant c2Batch [c2OutRow] c2OutRow (by with_unfolding_all rfl)
    (by decide) (Or.inl rfl) (by decide)

def c3Batch : List Row := [{ baseRow with Date_lapse := .text "15/07/2019" }]

def c3OutRow : Row := { baseRow with flag_invalid_start_vs_last := some 0 }

theorem c3_witness : c3OutRow.Date_lapse = DateVal.null :=
  c3_lapse_status_zero_no_lapse_date c3Batch [c3OutRow] c3OutRow (by with_unfolding_all rfl)
    (by decide) rfl

def c4Batch : List Row := [{ baseRow with Date_start_contract := .text "01/06/2021", Date_last_renewal := .text "01/01/2021" }]

def c4OutRow : Row := { baseRow with Date_start_contract := .ts ⟨2021, 6, 1⟩ (some "UTC"), Date_last_renewal := .ts ⟨2021, 1, 1⟩ (some "UTC"), flag_invalid_start_vs_last := some 1 }

theorem c4_witness :
    (∀ x : Row, (addFlag x).Date_start_contract = x.Date_start_contract ∧
      (addFlag x).Date_last_renewal = x.Date_last_renewal) ∧
    (c4OutRow.flag_invalid_start_vs_last = some 1 ∨
      c4OutRow.flag_invalid_start_vs_last = some 0) ∧
    (c4OutRow.flag_invalid_start_vs_last = some 1 ↔
      ∃ d1 d2 z1 z2, c4OutRow.Date_start_contract = DateVal.ts d1 z1 ∧
        c4OutRow.Date_last_renewal = DateVal.ts d2 z2 ∧ d2.code < d1.code) :=
  c4_flag_invalid_start_vs_last c4Batch [c4OutRow] c4OutRow (by with_unfolding_all rfl)
    (by decide)

def c5Batch : List Row := [{ baseRow with Date_birth := .text "31/12/1985", Date_start_contract := .text "nodate" }]

def c5OutRow : Row := { baseRow with Date_birth := .ts ⟨1985, 12, 31⟩ (some "UTC"), flag_invalid_start_vs_last := some 0 }

theorem c5_witness :
    (DateFieldOk c5OutRow.Date_start_contract ∧ DateFieldOk c5OutRow.Date_last_renewal ∧
     DateFieldOk c5OutRow.Date_next_renewal ∧ DateFieldOk c5OutRow.Date_birth ∧
     DateFieldOk c5OutRow.Date_driving_licence ∧ DateFieldOk c5OutRow.Date_lapse) ∧
    (∀ s, parseDayFirst s = none → cleanDateCell (.text s) = .ok .null) ∧
    (∀ s d, parseDayFirst s = some d → d.code < tsLimit →
      cleanDateCell (.text s) = .ok .null) ∧
    (∀ d, tzLocalizeUtc (.ts d none) = .ok (.ts d (some "UTC"))) :=
  c5_date_fields_normalized c5Batch [c5OutRow] c5OutRow (by with_unfolding_all rfl)
    (by decide)

def c6Batch : List Row := [{ baseRow with Distribution_channel := .str "00/01/1900" }]

def c6OutRow : Row := { baseRow with Distribution_channel := .int 0, flag_invalid_start_vs_last := some 0 }

theorem c6_witness : ∃ n : Int, c6OutRow.Distribution_channel = ChanVal.int n :=
  c6_distribution_channel_rules.2.1 c6Batch [c6OutRow] c6OutRow (by with_unfolding_all rfl)
    (by decide)

def c7Batch : List Row := [{ baseRow with Type_fuel := some "G", Length := none }, { baseRow with Type_fuel := some "G", Length := some 10 }, { baseRow with Type_fuel := some "G", Length := some 20 }]

def c7Out : List Row := [{ baseRow with Type_fuel := some "G", Length := some 15, flag_invalid_start_vs_last := some 0 }, { baseRow with Type_fuel := some "G", Length := some 10, flag_invalid_start_vs_last := some 0 }, { baseRow with Type_fuel := some "G", Length := some 20, flag_invalid_start_vs_last := some 0 }]

theorem c7_witness :
    c7Batch.filterMap Row.Length ≠ [] ∧
    (c7Out.get ⟨0, by decide⟩).Length = some 15 := by
  have hmain := c7_length_mean_imputation c7Batch c7Out (by with_unfolding_all rfl)
    (by with_unfolding_all decide)
  refine ⟨by with_unfolding_all decide, ?_⟩
  exact (hmain.2 0 (by decide) (by decide)).trans (by with_unfolding_all rfl)

def c9Batch : List Row := [{ baseRow with Type_fuel := none, Length := some 5 }]

def c9Out : List Row := [{ baseRow with Type_fuel := some "Unknown", Length := some 5, flag_invalid_start_vs_last := some 0 }]

theorem c9_witness :
    c9Out.length = c9Batch.length ∧
    (c9Out.get ⟨0, by decide⟩).Type_fuel =
      some (((c9Batch.get ⟨0, by decide⟩).Type_fuel).getD "Unknown") := by
  have hmain := c9_type_fuel_imputation c9Batch c9Out (by with_unfolding_all rfl)
  exact ⟨hmain.1, hmain.2 0 (by decide) (by decide)⟩

def c10Batch : List Row := [{ baseRow with Distribution_channel := .null }]

theorem c10_witness : ∃ e, clean c10Batch = .error e :=
  c10_null_channel_aborts c10Batch { baseRow with Distribution_channel := .null }
    (by decide) rfl

def c8Batch : List Row := [{ baseRow with Type_fuel := some "D", Length := some 5, Distribution_channel := .int 7, Date_lapse := .text "02/03/2015", Lapse := 1 }]

def c8OutRow : Row := { baseRow with Type_fuel := some "D", Length := some 5, Distribution_channel := .int 7, Date_lapse := .ts ⟨2015, 3, 2⟩ (some "UTC"), Lapse := 1, flag_invalid_start_vs_last := some 0 }

def c8Out : List Row := [c8OutRow]

/-- C8 (counterexample): cleaning this one-row batch succeeds, but applying
`clean` to its cleaned output raises at the date loop (the `Date_lapse`
column is already UTC-tagged and the comparison with the tz-naive floor
rejects it), so `clean` composed with itself neither succeeds nor reproduces
the batch. -/
theorem c8_not_idempotent_cex :
    clean c8Batch = .ok c8Out ∧ clean c8Out = .error .cmpTzAwareNaive := by
  constructor
  · with_unfolding_all rfl
  · with_unfolding_all rfl

theorem c8_witness : ∃ e, clean c8Out = .error e :=
  c8_second_clean_fails c8Batch c8Out (by with_unfolding_all rfl)
    ⟨c8OutRow, by decide, ⟨2015, 3, 2⟩, some "UTC", by decide⟩

end InsuranceEtl
